import Mathlib

/-!
Shallow embedding of the ciruela tracking subsystem and client upload
aggregation, translated from:
  src/daemon/tracking/fetch_blocks.rs  (block fetch engine)
  src/daemon/tracking/fetch_dir.rs     (image lifecycle driver)
  src/client/upload/mod.rs             (upload progress tracker)
Machine integers are modelled as Nat; byte strings as List Nat; the
external content-hash function, peer selection, timers and peer responses
are parameters of the embedded functions.
-/

namespace Ciruela

abbrev Bytes := List Nat

abbrev BlockHash := Nat

abbrev SocketAddr := Nat

/-- Constant from fetch_blocks.rs line 21 (milliseconds). -/
def FETCH_DEADLINE : Nat := 3600000

/-- Constant from fetch_blocks.rs line 22 (milliseconds). -/
def RETRY_CLUSTER_FAILURE : Nat := 120000

/-- Constant from fetch_blocks.rs line 23 (milliseconds). -/
def RETRY_INTERVAL : Nat := 2000

/-- Constant from fetch_blocks.rs line 24. -/
def CONCURRENCY : Nat := 10

/-- Work item from tracking/progress: hash, file path, byte offset. -/
structure Block where
  hash : BlockHash
  path : String
  offset : Nat
deriving Repr, DecidableEq

/-- Per-slice download state: slice index, deque of blocks not yet
started (front at the list head), in-flight counter, and the recorded
addresses of recently failed peers. -/
structure SliceState where
  index : Nat
  blocks : List Block
  in_progress : Nat
  failures : List SocketAddr
deriving Repr, DecidableEq

/-- The per-item state machine of fetch_blocks.rs: a request in flight
or a disk write in flight.  The Writing state needs no payload here
because write_block has already been invoked at the transition. -/
inductive FetchBlock where
  | Fetching (blk : Block) (slice : Nat) (addr : SocketAddr)
  | Writing
deriving Repr, DecidableEq

/-- Result of polling the peer-request future (an external event). -/
inductive FetchEvent where
  | notReady
  | ready (data : Bytes)
  | transportError
deriving Repr, DecidableEq

/-- Result of polling the disk-write future (an external event). -/
inductive WriteEvent where
  | notReady
  | ready
  | writeError
deriving Repr, DecidableEq

/-- Outcome of FetchBlock::poll.  itemDropped is the Err(()) return that
makes the scheduler drop the item; fatalExit is process::exit(code). -/
inductive PollOutcome where
  | notReady (st : FetchBlock)
  | readyDone
  | itemDropped
  | fatalExit (code : Nat)
deriving Repr, DecidableEq

/-- Everything one call of FetchBlock::poll produces: the outcome, the
updated slice list, whether last_okay was refreshed, and the write_block
calls issued (path, offset, data). -/
structure StepResult where
  outcome : PollOutcome
  slices : List SliceState
  lastOkayUpdated : Bool
  writes : List (String × Nat × Bytes)
deriving Repr, DecidableEq

/-- Lines 78-82 of fetch_blocks.rs: on a verified response the loop
decrements in_progress of every slice whose index matches (no break). -/
def decAllMatching (slice : Nat) (ss : List SliceState) : List SliceState :=
  ss.map (fun s =>
    if s.index = slice then { s with in_progress := s.in_progress - 1 } else s)

/-- Lines 95-102 and 107-114 of fetch_blocks.rs: on a checksum mismatch
or transport error, the first slice whose index matches gets in_progress
decremented, the block pushed to the back of its deque, and the peer
address recorded in failures; the loop then breaks. -/
def failFirstMatching (blk : Block) (slice : Nat) (addr : SocketAddr) :
    List SliceState → List SliceState
  | [] => []
  | s :: rest =>
    if s.index = slice then
      { s with in_progress := s.in_progress - 1,
               blocks := s.blocks ++ [blk],
               failures := s.failures ++ [addr] } :: rest
    else
      s :: failFirstMatching blk slice addr rest

/-- Lines 120-138 of fetch_blocks.rs: polling the Writing state.  A write
error calls process::exit(102). -/
def pollWriting : WriteEvent → PollOutcome
  | .ready => .readyDone
  | .notReady => .notReady .Writing
  | .writeError => .fatalExit 102

/-- FetchBlock::poll (fetch_blocks.rs lines 65-141).  hashBytes stands
for BlockHash::hash_bytes; fev and wev are the poll results of the
request and write futures.  On a verified response the machine moves to
Writing inside the same call and immediately polls the write future,
exactly as the source loop does. -/
def fetchBlockPoll (hashBytes : Bytes → BlockHash)
    (fev : FetchEvent) (wev : WriteEvent) :
    FetchBlock → List SliceState → StepResult
  | .Writing, slices => ⟨pollWriting wev, slices, false, []⟩
  | .Fetching blk slice addr, slices =>
    match fev with
    | .notReady => ⟨.notReady (.Fetching blk slice addr), slices, false, []⟩
    | .ready data =>
      if hashBytes data = blk.hash then
        ⟨pollWriting wev, decAllMatching slice slices, true,
         [(blk.path, blk.offset, data)]⟩
      else
        ⟨.itemDropped, failFirstMatching blk slice addr slices, false, []⟩
    | .transportError =>
      ⟨.itemDropped, failFirstMatching blk slice addr slices, false, []⟩

end Ciruela

namespace Ciruela

/-- C1: a write_block call is issued by the per-item state machine only
for data whose content hash equals the declared hash of the block, and
only at the block declared path and offset. -/
theorem C1_block_integrity (hashBytes : Bytes → BlockHash)
    (fev : FetchEvent) (wev : WriteEvent)
    (blk : Block) (slice : Nat) (addr : SocketAddr)
    (slices : List SliceState) (p : String) (off : Nat) (d : Bytes)
    (hmem : (p, off, d) ∈
      (fetchBlockPoll hashBytes fev wev (.Fetching blk slice addr)
        slices).writes) :
    hashBytes d = blk.hash ∧ p = blk.path ∧ off = blk.offset := by
  cases fev with
  | notReady => simp [fetchBlockPoll] at hmem
  | transportError => simp [fetchBlockPoll] at hmem
  | ready data =>
    by_cases h : hashBytes data = blk.hash
    · simp [fetchBlockPoll, h] at hmem
      obtain ⟨hp, hoff, hd⟩ := hmem
      subst hp; subst hoff; subst hd
      exact ⟨h, rfl, rfl⟩
    · simp [fetchBlockPoll, h] at hmem

theorem C1_block_integrity_witness :
    List.length ([5, 7] : Bytes) = (⟨2, "f", 16⟩ : Block).hash ∧
    "f" = (⟨2, "f", 16⟩ : Block).path ∧
    16 = (⟨2, "f", 16⟩ : Block).offset :=
  C1_block_integrity List.length (.ready [5, 7]) .notReady
    ⟨2, "f", 16⟩ 0 9 [] "f" 16 [5, 7] (by decide)

/-- Helper: failFirstMatching updates exactly the first slice whose index
matches and leaves every other slice untouched. -/
theorem failFirstMatching_eq (blk : Block) (slice : Nat) (addr : SocketAddr)
    (pre post : List SliceState) (s : SliceState)
    (hpre : ∀ s2 ∈ pre, s2.index ≠ slice) (hidx : s.index = slice) :
    failFirstMatching blk slice addr (pre ++ s :: post)
      = pre ++ { s with in_progress := s.in_progress - 1,
                        blocks := s.blocks ++ [blk],
                        failures := s.failures ++ [addr] } :: post := by
  induction pre with
  | nil => simp [failFirstMatching, hidx]
  | cons a rest ih =>
    have ha : a.index ≠ slice := hpre a (by simp)
    simp only [List.cons_append, failFirstMatching, if_neg ha]
    exact congrArg (a :: ·) (ih (fun x hx => hpre x (by simp [hx])))

/-- C5: on a checksum mismatch or a transport error, the per-item state
machine decrements in_progress of the matching slice by exactly one,
pushes the block back onto that slice deque, records the failing peer in
that slice failures, leaves all other slices untouched, issues no disk
write, and ends as itemDropped (the scheduler drops the item and the
download continues; the outcome is not fatal and not a deadline abort). -/
theorem C5_failure_requeue (hashBytes : Bytes → BlockHash)
    (wev : WriteEvent) (blk : Block) (slice : Nat) (addr : SocketAddr)
    (pre post : List SliceState) (s : SliceState)
    (hpre : ∀ s2 ∈ pre, s2.index ≠ slice) (hidx : s.index = slice)
    (hpos : 0 < s.in_progress) :
    (s.in_progress - 1) + 1 = s.in_progress ∧
    (∀ data, hashBytes data ≠ blk.hash →
      fetchBlockPoll hashBytes (.ready data) wev (.Fetching blk slice addr)
          (pre ++ s :: post)
        = ⟨.itemDropped,
           pre ++ { s with in_progress := s.in_progress - 1,
                           blocks := s.blocks ++ [blk],
                           failures := s.failures ++ [addr] } :: post,
           false, []⟩) ∧
    (fetchBlockPoll hashBytes .transportError wev (.Fetching blk slice addr)
        (pre ++ s :: post)
      = ⟨.itemDropped,
         pre ++ { s with in_progress := s.in_progress - 1,
                         blocks := s.blocks ++ [blk],
                         failures := s.failures ++ [addr] } :: post,
         false, []⟩) := by
  refine ⟨Nat.succ_pred_eq_of_pos hpos, ?_, ?_⟩
  · intro data hne
    simp [fetchBlockPoll, hne,
      failFirstMatching_eq blk slice addr pre post s hpre hidx]
  · simp [fetchBlockPoll,
      failFirstMatching_eq blk slice addr pre post s hpre hidx]

theorem C5_failure_requeue_witness :
    fetchBlockPoll (fun _ => 0) .transportError .notReady
      (.Fetching ⟨1, "g", 0⟩ 3 7)
      [⟨1, [], 0, []⟩, ⟨3, [], 2, []⟩]
    = ⟨.itemDropped,
       [⟨1, [], 0, []⟩, ⟨3, [⟨1, "g", 0⟩], 1, [7]⟩], false, []⟩ :=
  (C5_failure_requeue (fun _ => 0) .notReady ⟨1, "g", 0⟩ 3 7
    [⟨1, [], 0, []⟩] [] ⟨3, [], 2, []⟩ (by decide) rfl (by decide)).2.2

/-- C8: a disk-write error on a Writing item is fatal: the embedded poll
reports process exit with code 102, leaves every slice untouched (the
block is never re-enqueued) and does not produce the ordinary-failure
outcome itemDropped that would return control to the scheduler. -/
theorem C8_write_error_fatal (hashBytes : Bytes → BlockHash)
    (fev : FetchEvent) (slices : List SliceState) :
    fetchBlockPoll hashBytes fev .writeError .Writing slices
      = ⟨.fatalExit 102, slices, false, []⟩ := rfl

/-! The scheduler loop of FetchBlocks::poll (fetch_blocks.rs 148-262).
One iteration of the labelled outer loop is embedded as tickStep; the
poll results of the in-flight futures, the deadline timer state and the
check_stalled answer arrive as inputs. -/

/-- Observable side calls of one scheduler iteration. -/
inductive Effect where
  | reportSlice (idx : Nat)
  | notifyProgress
  | notifyStalled
deriving Repr, DecidableEq

/-- Engine state across iterations: the in-flight deque, the slice list,
the optional retry timer (carrying its duration in milliseconds) and the
last_okay instant (milliseconds). -/
structure EngineState where
  futures : List FetchBlock
  slices : List SliceState
  retry_timeout : Option Nat
  last_okay : Nat
deriving Repr, DecidableEq

/-- External inputs of one scheduler iteration: the poll events of the
i-th in-flight item, whether the deadline timer has fired, the current
instant, and the answer check_stalled would give. -/
structure TickInputs where
  events : Nat → FetchEvent × WriteEvent
  deadlineFired : Bool
  now : Nat
  stalledCheck : Bool

/-- Result of one iteration of the outer loop: the four returns of the
source (NotReady, Ready, Err, process exit) plus continueLoop for the
two continue-to-outer paths. -/
inductive TickResult where
  | notReady (st : EngineState)
  | done (st : EngineState)
  | failed (st : EngineState)
  | continueLoop (st : EngineState)
  | fatal (code : Nat)
deriving Repr, DecidableEq

/-- Lines 160-170: poll every in-flight item once; not-ready items are
kept in FIFO order, completed and dropped items are removed, and a fatal
item poll short-circuits the whole process.  Returns the remaining
items, the slices and the updated last_okay. -/
def pollItems (hashBytes : Bytes → BlockHash)
    (events : Nat → FetchEvent × WriteEvent) (now : Nat) :
    Nat → List FetchBlock → List SliceState → Nat →
    Except Nat (List FetchBlock × List SliceState × Nat)
  | _, [], slices, lastOkay => .ok ([], slices, lastOkay)
  | i, item :: rest, slices, lastOkay =>
    let r := fetchBlockPoll hashBytes (events i).1 (events i).2 item slices
    let lo := if r.lastOkayUpdated then now else lastOkay
    match r.outcome with
    | .fatalExit c => .error c
    | .notReady st =>
      match pollItems hashBytes events now (i + 1) rest r.slices lo with
      | .error c => .error c
      | .ok (fs, ss, l) => .ok (st :: fs, ss, l)
    | .readyDone => pollItems hashBytes events now (i + 1) rest r.slices lo
    | .itemDropped => pollItems hashBytes events now (i + 1) rest r.slices lo

/-- Lines 171-182: retain only slices that still have work; each removed
slice reports its index (setting the mask bit) and broadcasts progress. -/
def pruneSlices (ss : List SliceState) : List SliceState × List Effect :=
  (ss.filter (fun s => 0 < s.in_progress ∨ s.blocks ≠ []),
   (ss.filter (fun s => ¬(0 < s.in_progress ∨ s.blocks ≠ []))).flatMap
     (fun s => [Effect.reportSlice s.index, Effect.notifyProgress]))

/-- Result of the while-let loop over one slice deque. -/
structure SchedBlocksResult where
  blocks : List Block
  in_progress : Nat
  futures : List FetchBlock
  fresh : Nat
  overLimit : Bool
deriving Repr, DecidableEq

/-- Lines 197-224, inner while loop: pop blocks from the front of one
slice deque; when a peer is found push a Fetching item and bump
in_progress, aborting the whole pass (continue to the outer loop) as
soon as the in-flight count exceeds CONCURRENCY; when no peer is found
push the block to the back of the deque and break. -/
def scheduleBlocks (getConn : Nat → List SocketAddr → Option SocketAddr)
    (idx : Nat) (failures : List SocketAddr) :
    List Block → Nat → List FetchBlock → SchedBlocksResult
  | [], inprog, futures => ⟨[], inprog, futures, 0, false⟩
  | blk :: rest, inprog, futures =>
    match getConn idx failures with
    | none => ⟨rest ++ [blk], inprog, futures, 0, false⟩
    | some c =>
      let futures2 := futures ++ [FetchBlock.Fetching blk idx c]
      if CONCURRENCY < futures2.length then
        ⟨rest, inprog + 1, futures2, 1, true⟩
      else
        let r := scheduleBlocks getConn idx failures rest (inprog + 1) futures2
        ⟨r.blocks, r.in_progress, r.futures, r.fresh + 1, r.overLimit⟩

/-- Result of the scheduling pass over all slices. -/
structure SchedResult where
  slices : List SliceState
  futures : List FetchBlock
  fresh : Nat
deriving Repr, DecidableEq

/-- Lines 196-225, scheduling pass: slices are scanned in stored order;
an over-limit abort leaves the remaining slices untouched. -/
def scheduleSlices (getConn : Nat → List SocketAddr → Option SocketAddr) :
    List SliceState → List FetchBlock → SchedResult
  | [], futures => ⟨[], futures, 0⟩
  | s :: rest, futures =>
    let r := scheduleBlocks getConn s.index s.failures s.blocks
      s.in_progress futures
    let s2 : SliceState := { s with blocks := r.blocks,
                                    in_progress := r.in_progress }
    if r.overLimit then ⟨s2 :: rest, r.futures, r.fresh⟩
    else
      let r2 := scheduleSlices getConn rest r.futures
      ⟨s2 :: r2.slices, r2.futures, r.fresh + r2.fresh⟩

/-- One iteration of the outer loop of FetchBlocks::poll (lines
160-261).  A freshly created RETRY_INTERVAL timeout polled in the same
iteration has not elapsed (RETRY_INTERVAL is positive), so the
Async::Ready branch of line 255 is dead and arming always returns
NotReady. -/
def tickStep (hashBytes : Bytes → BlockHash)
    (getConn : Nat → List SocketAddr → Option SocketAddr)
    (inp : TickInputs) (st : EngineState) : TickResult × List Effect :=
  match pollItems hashBytes inp.events inp.now 0 st.futures st.slices
      st.last_okay with
  | .error c => (.fatal c, [])
  | .ok (fs1, ss1, lo) =>
    match pruneSlices ss1 with
    | (ss2, effs) =>
      if fs1 = [] ∧ ss2 = [] then
        (.done ⟨fs1, ss2, none, lo⟩, effs)
      else if inp.deadlineFired then
        (.failed ⟨fs1, ss2, none, lo⟩, effs)
      else if CONCURRENCY ≤ fs1.length then
        (.notReady ⟨fs1, ss2, none, lo⟩, effs)
      else
        let r := scheduleSlices getConn ss2 fs1
        if 0 < r.fresh then
          (.continueLoop ⟨r.futures, r.slices, none, lo⟩, effs)
        else if r.futures = [] then
          if lo + RETRY_CLUSTER_FAILURE < inp.now ∧ inp.stalledCheck then
            (.failed ⟨r.futures, r.slices, none, lo⟩,
             effs ++ [Effect.notifyStalled])
          else
            (.notReady ⟨r.futures, r.slices, some RETRY_INTERVAL, lo⟩,
             effs ++ [Effect.notifyStalled])
        else
          (.notReady ⟨r.futures, r.slices, none, lo⟩, effs)

/-- Lines 151-159, entry of FetchBlocks::poll: an armed retry timer that
has not fired short-circuits the whole poll. -/
def pollEntry (retryFired : Bool) (st : EngineState) :
    Option EngineState :=
  match st.retry_timeout with
  | none => some st
  | some _ => if retryFired then some { st with retry_timeout := none }
              else none

/-- Projection used to speak about every result that carries a state. -/
def TickResult.state? : TickResult → Option EngineState
  | .notReady st => some st
  | .done st => some st
  | .failed st => some st
  | .continueLoop st => some st
  | .fatal _ => none

/-- Helper: polling the in-flight items never adds an item. -/
theorem pollItems_length_le (hashBytes : Bytes → BlockHash)
    (events : Nat → FetchEvent × WriteEvent) (now : Nat) :
    ∀ (fut : List FetchBlock) (i : Nat) (slices : List SliceState)
      (lastOkay : Nat) (fs : List FetchBlock) (ss : List SliceState)
      (l : Nat),
      pollItems hashBytes events now i fut slices lastOkay
        = .ok (fs, ss, l) →
      fs.length ≤ fut.length := by
  intro fut
  induction fut with
  | nil =>
    intro i slices lastOkay fs ss l h
    simp only [pollItems, Except.ok.injEq, Prod.mk.injEq] at h
    simp [← h.1]
  | cons item rest ih =>
    intro i slices lastOkay fs ss l h
    simp only [pollItems] at h
    split at h
    · exact absurd h (by simp)
    · split at h
      · exact absurd h (by simp)
      · rename_i st hfs hss hl hrec
        rw [Except.ok.injEq, Prod.mk.injEq] at h
        obtain ⟨h1, _⟩ := h
        subst h1
        simpa using Nat.succ_le_succ (ih _ _ _ _ _ _ hrec)
    · exact Nat.le_succ_of_le (ih _ _ _ _ _ _ h)
    · exact Nat.le_succ_of_le (ih _ _ _ _ _ _ h)

/-- Helper: the inner scheduling loop keeps the in-flight count at most
CONCURRENCY + 1, and at most CONCURRENCY when it did not abort. -/
theorem scheduleBlocks_le (g : Nat → List SocketAddr → Option SocketAddr)
    (idx : Nat) (failures : List SocketAddr) :
    ∀ (bs : List Block) (inprog : Nat) (futures : List FetchBlock),
      futures.length ≤ CONCURRENCY →
      (scheduleBlocks g idx failures bs inprog futures).futures.length
          ≤ CONCURRENCY + 1 ∧
      ((scheduleBlocks g idx failures bs inprog futures).overLimit = false →
        (scheduleBlocks g idx failures bs inprog futures).futures.length
          ≤ CONCURRENCY) := by
  intro bs
  induction bs with
  | nil => intro inprog futures hle; exact ⟨Nat.le_succ_of_le hle, fun _ => hle⟩
  | cons blk rest ih =>
    intro inprog futures hle
    simp only [scheduleBlocks]
    cases hconn : g idx failures with
    | none => exact ⟨Nat.le_succ_of_le hle, fun _ => hle⟩
    | some c =>
      simp only []
      by_cases hlen :
          CONCURRENCY < (futures ++ [FetchBlock.Fetching blk idx c]).length
      · simp only [if_pos hlen]
        constructor
        · simpa using Nat.succ_le_succ hle
        · intro hfalse; exact absurd hfalse (by simp)
      · simp only [if_neg hlen]
        exact ih (inprog + 1) _ (Nat.le_of_not_lt hlen)

/-- Helper: the scheduling pass keeps the in-flight count at most
CONCURRENCY + 1 whenever it starts at most at CONCURRENCY. -/
theorem scheduleSlices_le (g : Nat → List SocketAddr → Option SocketAddr) :
    ∀ (ss : List SliceState) (futures : List FetchBlock),
      futures.length ≤ CONCURRENCY →
      (scheduleSlices g ss futures).futures.length ≤ CONCURRENCY + 1 := by
  intro ss
  induction ss with
  | nil => intro futures hle; exact Nat.le_succ_of_le hle
  | cons s rest ih =>
    intro futures hle
    simp only [scheduleSlices]
    obtain ⟨h1, h2⟩ := scheduleBlocks_le g s.index s.failures s.blocks
      s.in_progress futures hle
    by_cases hov : (scheduleBlocks g s.index s.failures s.blocks
        s.in_progress futures).overLimit
    · simpa [hov] using h1
    · have := ih _ (h2 (by simpa using hov))
      simpa [hov] using this

/-- Helper: a scheduling pass that created no new item left the deque of
in-flight futures exactly as it was, for one slice. -/
theorem scheduleBlocks_fresh_zero
    (g : Nat → List SocketAddr → Option SocketAddr)
    (idx : Nat) (failures : List SocketAddr) :
    ∀ (bs : List Block) (inprog : Nat) (futures : List FetchBlock),
      (scheduleBlocks g idx failures bs inprog futures).fresh = 0 →
      (scheduleBlocks g idx failures bs inprog futures).futures = futures ∧
      (scheduleBlocks g idx failures bs inprog futures).overLimit = false ∧
      (scheduleBlocks g idx failures bs inprog futures).in_progress
        = inprog := by
  intro bs
  induction bs with
  | nil => intro inprog futures _; exact ⟨rfl, rfl, rfl⟩
  | cons blk rest ih =>
    intro inprog futures h
    cases hconn : g idx failures with
    | none => simp [scheduleBlocks, hconn]
    | some c =>
      simp only [scheduleBlocks, hconn] at h
      by_cases hlen :
          CONCURRENCY < (futures ++ [FetchBlock.Fetching blk idx c]).length
      · rw [if_pos hlen] at h; exact absurd h (by simp)
      · rw [if_neg hlen] at h; exact absurd h (by simp)

/-- Helper: a scheduling pass that created no new item left the deque of
in-flight futures exactly as it was. -/
theorem scheduleSlices_fresh_zero
    (g : Nat → List SocketAddr → Option SocketAddr) :
    ∀ (ss : List SliceState) (futures : List FetchBlock),
      (scheduleSlices g ss futures).fresh = 0 →
      (scheduleSlices g ss futures).futures = futures := by
  intro ss
  induction ss with
  | nil => intro futures _; rfl
  | cons s rest ih =>
    intro futures h
    simp only [scheduleSlices] at h ⊢
    by_cases hov : (scheduleBlocks g s.index s.failures s.blocks
        s.in_progress futures).overLimit
    · rw [if_pos hov] at h
      obtain ⟨_, hov2, _⟩ := scheduleBlocks_fresh_zero g s.index s.failures
        s.blocks s.in_progress futures h
      exact absurd hov2 (by simp [hov])
    · rw [if_neg hov] at h ⊢
      simp only [] at h
      have hz : (scheduleBlocks g s.index s.failures s.blocks
          s.in_progress futures).fresh = 0 := Nat.eq_zero_of_add_eq_zero_right h
      have hz2 : (scheduleSlices g rest (scheduleBlocks g s.index s.failures
          s.blocks s.in_progress futures).futures).fresh = 0 :=
        Nat.eq_zero_of_add_eq_zero_left h
      obtain ⟨hf, _, _⟩ := scheduleBlocks_fresh_zero g s.index s.failures
        s.blocks s.in_progress futures hz
      rw [hf] at hz2 ⊢
      exact ih futures hz2

/-- Helper: pruning complete slices never emits a notify_stalled call. -/
theorem pruneSlices_no_stalled (ss : List SliceState) :
    Effect.notifyStalled ∉ (pruneSlices ss).2 := by
  simp only [pruneSlices, List.mem_flatMap]
  rintro ⟨s, _, hmem⟩
  simp at hmem

/-- C2: the in-flight bound of the scheduler loop.  First, one loop
iteration preserves the bound of CONCURRENCY + 1 on the number of
in-flight items, whatever state it returns in.  Second, when the items
left after the polling phase already number at least CONCURRENCY, the
iteration returns not-ready without scheduling anything.  Third, the
scheduling loop stops (aborting the pass) as soon as pushing one more
item brings the count over CONCURRENCY, having scheduled exactly that
one item. -/
theorem C2_concurrency_bound :
    (∀ (hb : Bytes → BlockHash)
       (g : Nat → List SocketAddr → Option SocketAddr)
       (inp : TickInputs) (st st2 : EngineState),
       st.futures.length ≤ CONCURRENCY + 1 →
       (tickStep hb g inp st).1.state? = some st2 →
       st2.futures.length ≤ CONCURRENCY + 1) ∧
    (∀ (hb : Bytes → BlockHash)
       (g : Nat → List SocketAddr → Option SocketAddr)
       (inp : TickInputs) (st : EngineState)
       (fs1 : List FetchBlock) (ss1 : List SliceState) (lo : Nat),
       pollItems hb inp.events inp.now 0 st.futures st.slices st.last_okay
         = .ok (fs1, ss1, lo) →
       CONCURRENCY ≤ fs1.length →
       inp.deadlineFired = false →
       (tickStep hb g inp st).1
         = .notReady ⟨fs1, (pruneSlices ss1).1, none, lo⟩) ∧
    (∀ (g : Nat → List SocketAddr → Option SocketAddr)
       (idx : Nat) (failures : List SocketAddr) (blk : Block)
       (rest : List Block) (inprog : Nat) (futures : List FetchBlock)
       (c : SocketAddr),
       CONCURRENCY ≤ futures.length →
       g idx failures = some c →
       scheduleBlocks g idx failures (blk :: rest) inprog futures
         = ⟨rest, inprog + 1, futures ++ [FetchBlock.Fetching blk idx c],
            1, true⟩) := by
  refine ⟨?_, ?_, ?_⟩
  · intro hb g inp st st2 hbound hres
    rw [tickStep] at hres
    cases hpoll : pollItems hb inp.events inp.now 0 st.futures st.slices
        st.last_okay with
    | error c => rw [hpoll] at hres; simp [TickResult.state?] at hres
    | ok triple =>
      obtain ⟨fs1, ss1, lo⟩ := triple
      rw [hpoll] at hres
      have hle1 : fs1.length ≤ CONCURRENCY + 1 :=
        le_trans (pollItems_length_le hb inp.events inp.now st.futures 0
          st.slices st.last_okay fs1 ss1 lo hpoll) hbound
      simp only [] at hres
      by_cases hdone : fs1 = [] ∧ (pruneSlices ss1).1 = []
      · rw [if_pos hdone] at hres
        simp [TickResult.state?] at hres
        rw [← hres]
        exact hle1
      · rw [if_neg hdone] at hres
        by_cases hdl : inp.deadlineFired
        · rw [if_pos hdl] at hres
          simp [TickResult.state?] at hres
          rw [← hres]
          exact hle1
        · rw [if_neg hdl] at hres
          by_cases hguard : CONCURRENCY ≤ fs1.length
          · rw [if_pos hguard] at hres
            simp [TickResult.state?] at hres
            rw [← hres]
            exact hle1
          · rw [if_neg hguard] at hres
            have hC : fs1.length ≤ CONCURRENCY :=
              Nat.le_of_lt (Nat.lt_of_not_le hguard)
            have hsched := scheduleSlices_le g (pruneSlices ss1).1 fs1 hC
            by_cases hfresh :
                0 < (scheduleSlices g (pruneSlices ss1).1 fs1).fresh
            · rw [if_pos hfresh] at hres
              simp [TickResult.state?] at hres
              rw [← hres]
              exact hsched
            · rw [if_neg hfresh] at hres
              by_cases hemp : (scheduleSlices g (pruneSlices ss1).1 fs1).futures
                  = []
              · rw [if_pos hemp] at hres
                by_cases hstall : lo + RETRY_CLUSTER_FAILURE < inp.now ∧
                    inp.stalledCheck
                · rw [if_pos hstall] at hres
                  simp [TickResult.state?] at hres
                  rw [← hres]
                  exact hsched
                · rw [if_neg hstall] at hres
                  simp [TickResult.state?] at hres
                  rw [← hres]
                  exact hsched
              · rw [if_neg hemp] at hres
                simp [TickResult.state?] at hres
                rw [← hres]
                exact hsched
  · intro hb g inp st fs1 ss1 lo hpoll hguard hdl
    rw [tickStep, hpoll]
    have hne : ¬(fs1 = [] ∧ (pruneSlices ss1).1 = []) := by
      rintro ⟨h1, _⟩
      rw [h1] at hguard
      simp [CONCURRENCY] at hguard
    simp only []
    rw [if_neg hne, if_neg (by simp [hdl]), if_pos hguard]
  · intro g idx failures blk rest inprog futures c hle hconn
    have hlt : CONCURRENCY <
        (futures ++ [FetchBlock.Fetching blk idx c]).length := by
      simpa using Nat.lt_succ_of_le hle
    simp only [scheduleBlocks, hconn]
    rw [if_pos hlt]

theorem C2_concurrency_bound_witness :
    (EngineState.mk [] [] none 0).futures.length ≤ CONCURRENCY + 1 ∧
    (tickStep (fun _ => 0) (fun _ _ => none)
        ⟨fun _ => (.notReady, .notReady), false, 0, false⟩
        ⟨List.replicate 10 .Writing, [], none, 0⟩).1
      = .notReady ⟨List.replicate 10 .Writing, [], none, 0⟩ ∧
    scheduleBlocks (fun _ _ => some 5) 0 [] [⟨1, "a", 0⟩] 0
        (List.replicate 10 (FetchBlock.Fetching ⟨1, "a", 0⟩ 0 5))
      = ⟨[], 1,
         List.replicate 10 (FetchBlock.Fetching ⟨1, "a", 0⟩ 0 5)
           ++ [FetchBlock.Fetching ⟨1, "a", 0⟩ 0 5], 1, true⟩ := by
  refine ⟨?_, ?_, ?_⟩
  · exact C2_concurrency_bound.1 (fun _ => 0) (fun _ _ => none)
      ⟨fun _ => (.notReady, .notReady), false, 0, false⟩
      ⟨[], [], none, 0⟩ ⟨[], [], none, 0⟩ (by decide) rfl
  · exact C2_concurrency_bound.2.1 (fun _ => 0) (fun _ _ => none)
      ⟨fun _ => (.notReady, .notReady), false, 0, false⟩
      ⟨List.replicate 10 .Writing, [], none, 0⟩
      (List.replicate 10 .Writing) [] 0 rfl (by decide) rfl
  · exact C2_concurrency_bound.2.2 (fun _ _ => some 5) 0 [] ⟨1, "a", 0⟩
      [] 0 (List.replicate 10 (FetchBlock.Fetching ⟨1, "a", 0⟩ 0 5)) 5
      (by decide) rfl

/-- C3 counterexample.  First input: one Writing item is still in
flight, nothing can be scheduled (no peer), yet the iteration neither
calls notify_stalled nor arms the retry timer; it just returns
not-ready.  Second input: nothing is in flight, nothing was scheduled,
the elapsed time since last_okay equals RETRY_CLUSTER_FAILURE exactly
and check_stalled answers true, yet the engine does not fail: the
comparison in the source is strict, so it arms the retry timer and
returns not-ready. -/
theorem C3_stalled_counterexample :
    ((tickStep (fun _ => 0) (fun _ _ => none)
        ⟨fun _ => (.notReady, .notReady), false, 5, false⟩
        ⟨[.Writing], [⟨0, [], 1, []⟩], none, 0⟩)
      = (.notReady ⟨[.Writing], [⟨0, [], 1, []⟩], none, 0⟩, [])) ∧
    Effect.notifyStalled ∉
      (tickStep (fun _ => 0) (fun _ _ => none)
        ⟨fun _ => (.notReady, .notReady), false, 5, false⟩
        ⟨[.Writing], [⟨0, [], 1, []⟩], none, 0⟩).2 ∧
    ((tickStep (fun _ => 0) (fun _ _ => none)
        ⟨fun _ => (.notReady, .notReady), false, RETRY_CLUSTER_FAILURE, true⟩
        ⟨[], [⟨0, [⟨1, "a", 0⟩], 0, []⟩], none, 0⟩)
      = (.notReady ⟨[], [⟨0, [⟨1, "a", 0⟩], 0, []⟩], some RETRY_INTERVAL, 0⟩,
         [Effect.notifyStalled])) := by
  refine ⟨by decide, ?_, by decide⟩
  intro h
  rw [show (tickStep (fun _ => 0) (fun _ _ => none)
        ⟨fun _ => (.notReady, .notReady), false, 5, false⟩
        ⟨[.Writing], [⟨0, [], 1, []⟩], none, 0⟩).2 = [] from by decide] at h
  simp at h

/-- C3 as amended: on a scheduler iteration in which no new item was
scheduled, the stall handling runs only when additionally no items
remain in flight; then notify_stalled is called and the engine fails
when the time since last_okay strictly exceeds RETRY_CLUSTER_FAILURE
and check_stalled answers true, and otherwise arms the retry timer for
RETRY_INTERVAL and returns not-ready.  When items do remain in flight
the iteration returns not-ready without calling notify_stalled and
without arming the timer. -/
theorem C3_stalled_amended (hb : Bytes → BlockHash)
    (g : Nat → List SocketAddr → Option SocketAddr)
    (inp : TickInputs) (st : EngineState)
    (fs1 : List FetchBlock) (ss1 : List SliceState) (lo : Nat)
    (hpoll : pollItems hb inp.events inp.now 0 st.futures st.slices
      st.last_okay = .ok (fs1, ss1, lo))
    (hdl : inp.deadlineFired = false)
    (hlen : fs1.length < CONCURRENCY)
    (hfresh : (scheduleSlices g (pruneSlices ss1).1 fs1).fresh = 0)
    (hne : (pruneSlices ss1).1 ≠ []) :
    (fs1 = [] →
      Effect.notifyStalled ∈ (tickStep hb g inp st).2 ∧
      ((lo + RETRY_CLUSTER_FAILURE < inp.now ∧ inp.stalledCheck) →
        (tickStep hb g inp st).1
          = .failed ⟨[], (scheduleSlices g (pruneSlices ss1).1 fs1).slices,
              none, lo⟩) ∧
      (¬(lo + RETRY_CLUSTER_FAILURE < inp.now ∧ inp.stalledCheck) →
        (tickStep hb g inp st).1
          = .notReady ⟨[], (scheduleSlices g (pruneSlices ss1).1 fs1).slices,
              some RETRY_INTERVAL, lo⟩)) ∧
    (fs1 ≠ [] →
      Effect.notifyStalled ∉ (tickStep hb g inp st).2 ∧
      (tickStep hb g inp st).1
        = .notReady ⟨fs1, (scheduleSlices g (pruneSlices ss1).1 fs1).slices,
            none, lo⟩) := by
  have hunch := scheduleSlices_fresh_zero g (pruneSlices ss1).1 fs1 hfresh
  constructor
  · intro hnil
    subst hnil
    rw [tickStep, hpoll]
    simp only []
    rw [if_neg (by rintro ⟨_, h2⟩; exact hne h2),
      if_neg (by simp [hdl]), if_neg (by simp [CONCURRENCY]),
      if_neg (by simp [hfresh]), if_pos hunch]
    by_cases hstall : lo + RETRY_CLUSTER_FAILURE < inp.now ∧ inp.stalledCheck
    · rw [if_pos hstall]
      refine ⟨by simp, fun _ => ?_, fun hcon => absurd hstall hcon⟩
      rw [hunch]
    · rw [if_neg hstall]
      refine ⟨by simp, fun hcon => absurd hcon hstall, fun _ => ?_⟩
      rw [hunch]
  · intro hnonnil
    rw [tickStep, hpoll]
    simp only []
    rw [if_neg (by rintro ⟨h1, _⟩; exact hnonnil h1),
      if_neg (by simp [hdl]), if_neg (by simp [Nat.not_le_of_lt hlen]),
      if_neg (by simp [hfresh]), if_neg (by rw [hunch]; exact hnonnil)]
    exact ⟨pruneSlices_no_stalled ss1, by rw [hunch]⟩

theorem C3_stalled_amended_witness :
    Effect.notifyStalled ∈
      (tickStep (fun _ => 0) (fun _ _ => none)
        ⟨fun _ => (.notReady, .notReady), false, 5, false⟩
        ⟨[], [⟨0, [⟨1, "a", 0⟩], 0, []⟩], none, 0⟩).2 ∧
    (tickStep (fun _ => 0) (fun _ _ => none)
        ⟨fun _ => (.notReady, .notReady), false, 5, false⟩
        ⟨[], [⟨0, [⟨1, "a", 0⟩], 0, []⟩], none, 0⟩).1
      = .notReady ⟨[], [⟨0, [⟨1, "a", 0⟩], 0, []⟩], some RETRY_INTERVAL, 0⟩ := by
  have h := (C3_stalled_amended (fun _ => 0) (fun _ _ => none)
    ⟨fun _ => (.notReady, .notReady), false, 5, false⟩
    ⟨[], [⟨0, [⟨1, "a", 0⟩], 0, []⟩], none, 0⟩
    [] [⟨0, [⟨1, "a", 0⟩], 0, []⟩] 0 rfl rfl (by decide) (by decide)
    (by decide)).1 rfl
  exact ⟨h.1, h.2.2 (by decide)⟩

/-- C4 counterexample: with two queued blocks and no qualifying peer,
the refused block ends at the back of the deque, not at the front: the
deque is rotated from b1, b2 to b2, b1. -/
theorem C4_requeue_counterexample :
    scheduleSlices (fun _ _ => none)
      [⟨0, [⟨1, "a", 0⟩, ⟨2, "a", 8⟩], 0, []⟩] []
      = ⟨[⟨0, [⟨2, "a", 8⟩, ⟨1, "a", 0⟩], 0, []⟩], [], 0⟩ ∧
    ([⟨2, "a", 8⟩, ⟨1, "a", 0⟩] : List Block)
      ≠ [⟨1, "a", 0⟩, ⟨2, "a", 8⟩] := ⟨by decide, by decide⟩

/-- C4 as amended: when no qualifying peer is found for the next block
of a slice, that block is pushed to the back of the slice deque
(rotating the deque by one), the slice is otherwise unchanged, and the
engine moves on to the next slice, whose scheduling proceeds with the
same in-flight deque. -/
theorem C4_requeue_back (g : Nat → List SocketAddr → Option SocketAddr)
    (s : SliceState) (rest : List SliceState) (futures : List FetchBlock)
    (blk : Block) (bs : List Block)
    (hblocks : s.blocks = blk :: bs)
    (hnone : g s.index s.failures = none) :
    scheduleSlices g (s :: rest) futures
      = ⟨{ s with blocks := bs ++ [blk] }
            :: (scheduleSlices g rest futures).slices,
         (scheduleSlices g rest futures).futures,
         (scheduleSlices g rest futures).fresh⟩ := by
  simp [scheduleSlices, hblocks, scheduleBlocks, hnone]

theorem C4_requeue_back_witness :
    scheduleSlices (fun _ _ => none)
      [⟨3, [⟨1, "a", 0⟩, ⟨2, "a", 8⟩], 4, [9]⟩, ⟨7, [], 1, []⟩] [.Writing]
      = ⟨[⟨3, [⟨2, "a", 8⟩, ⟨1, "a", 0⟩], 4, [9]⟩, ⟨7, [], 1, []⟩],
         [.Writing], 0⟩ :=
  C4_requeue_back (fun _ _ => none) ⟨3, [⟨1, "a", 0⟩, ⟨2, "a", 8⟩], 4, [9]⟩
    [⟨7, [], 1, []⟩] [.Writing] ⟨1, "a", 0⟩ [⟨2, "a", 8⟩] rfl rfl

/-! The image lifecycle driver (fetch_dir.rs). -/

/-- External calls made by the driver, in order of emission. -/
inductive DriverEffect where
  | dirAborted
  | dirCommitted
  | notifyAborted (reason : String)
  | notifyReceived
  | indexFetched
  | notifyProgress
deriving Repr, DecidableEq

/-- Outcome of the disk start_image call (fetch_dir.rs lines 38-63):
a created staging image, the AlreadyExists error, or another error. -/
inductive StartImageResult where
  | ok
  | alreadyExists
  | otherError
deriving Repr, DecidableEq

/-- Lines 38-65 of fetch_dir.rs: dispatch on the start_image result.
The Bool result records whether the driver proceeds towards hardlinking
and block fetching. -/
def startImageHandler : StartImageResult → List DriverEffect × Bool
  | .ok => ([.indexFetched, .notifyProgress], true)
  | .alreadyExists => ([.dirCommitted, .notifyReceived], false)
  | .otherError =>
    ([.dirAborted, .notifyAborted "cant_create_directory"], false)

/-- Lines 89-120 of fetch_dir.rs: the combinator chain around the block
fetch engine.  The first argument is the engine result, the second what
commit_image returns when it is reached. -/
def fetchBlocksDriver (engineResult : Except Unit Unit)
    (commitResult : Except Unit Unit) : List DriverEffect :=
  match engineResult with
  | .error () => [.dirAborted, .notifyAborted "cluster_abort_no_file_source"]
  | .ok () =>
    match commitResult with
    | .error () => [.dirAborted, .notifyAborted "commit_error"]
    | .ok () => [.dirCommitted, .notifyReceived]

/-- C6: terminal reporting of a driven download.  Engine failure aborts
with cluster_abort_no_file_source; engine success followed by a commit
failure aborts with commit_error; commit success reports dir_committed
and sends ReceivedImage. -/
theorem C6_driver_terminal :
    (∀ c, fetchBlocksDriver (.error ()) c
      = [.dirAborted, .notifyAborted "cluster_abort_no_file_source"]) ∧
    fetchBlocksDriver (.ok ()) (.error ())
      = [.dirAborted, .notifyAborted "commit_error"] ∧
    fetchBlocksDriver (.ok ()) (.ok ())
      = [.dirCommitted, .notifyReceived] :=
  ⟨fun _ => rfl, rfl, rfl⟩

/-- C7: AlreadyExists from start_image is success: the driver reports
dir_committed and ReceivedImage, proceeds to no block fetching, and
emits no abort call and no abort notification. -/
theorem C7_already_exists :
    startImageHandler .alreadyExists = ([.dirCommitted, .notifyReceived],
      false) ∧
    DriverEffect.dirAborted ∉ (startImageHandler .alreadyExists).1 ∧
    ∀ r, DriverEffect.notifyAborted r ∉ (startImageHandler .alreadyExists).1 := by
  refine ⟨rfl, by decide, ?_⟩
  intro r
  simp [startImageHandler]

/-! The client upload progress tracker (client/upload/mod.rs). -/

/-- Client-side progress state (upload/mod.rs lines 28-35).  The done
one-shot sender is present until completion fires. -/
structure Progress where
  hosts_done : List (Nat × String)
  ips_needed : List SocketAddr
  ids_needed : List (Nat × String)
  hosts_errored : List SocketAddr
  done : Option Unit
deriving Repr, DecidableEq

/-- Tracker::closed (upload/mod.rs lines 85-98): only while the done
one-shot is still present, the closing address is removed from
ips_needed and added to hosts_errored, and completion fires when
ips_needed empties. -/
def trackerClosed (addr : SocketAddr) (pro : Progress) : Progress :=
  match pro.done with
  | none => pro
  | some () =>
    let pro1 := { pro with
      ips_needed := pro.ips_needed.filter (fun a => a ≠ addr),
      hosts_errored :=
        if addr ∈ pro.hosts_errored then pro.hosts_errored
        else pro.hosts_errored ++ [addr] }
    if pro1.ips_needed = [] then { pro1 with done := none } else pro1

/-- C10: once the completion one-shot has been taken (done is None),
the closed callback is a no-op: the whole Progress state is returned
unchanged. -/
theorem C10_closed_after_done (addr : SocketAddr) (pro : Progress)
    (hdone : pro.done = none) : trackerClosed addr pro = pro := by
  rw [trackerClosed, hdone]

theorem C10_closed_after_done_witness :
    trackerClosed 4 ⟨[(1, "h")], [4, 6], [], [], none⟩
      = ⟨[(1, "h")], [4, 6], [], [], none⟩ :=
  C10_closed_after_done 4 ⟨[(1, "h")], [4, 6], [], [], none⟩ rfl

/-- Per-address outcome of the upload chain (upload/mod.rs lines
217-294): a connect or request error, a rejected placement, or an
accepted placement that then awaits the completion one-shot. -/
inductive AddrOutcome where
  | connectError
  | rejected
  | accepted
deriving Repr, DecidableEq

/-- Fate of the shared completion one-shot: fired (recording whether
hosts_errored was empty at that instant) or dropped unfired. -/
inductive Completion where
  | fired (hostsErroredEmpty : Bool)
  | dropped
deriving Repr, DecidableEq

/-- Lines 262-294: the Bool a single address future resolves to.  An
accepted address waits for the one-shot and then returns is_ok, the
emptiness of hosts_errored; every other path returns false. -/
def addrResult (comp : Completion) : AddrOutcome → Bool
  | .connectError => false
  | .rejected => false
  | .accepted =>
    match comp with
    | .fired e => e
    | .dropped => false

/-- Line 298: per-cluster combination with any. -/
def clusterResult (comp : Completion) (addrs : List AddrOutcome) : Bool :=
  addrs.any (fun a => addrResult comp a)

/-- Line 303: across clusters combination with all. -/
def uploadResult (comp : Completion) (clusters : List (List AddrOutcome)) :
    Bool :=
  clusters.all (fun c => clusterResult comp c)

/-- C9: do_upload resolves to true iff every cluster entry-point has at
least one address whose placement was accepted and the completion
one-shot fired at an instant when hosts_errored was empty. -/
theorem C9_upload_success (comp : Completion)
    (clusters : List (List AddrOutcome)) :
    uploadResult comp clusters = true ↔
      ∀ c ∈ clusters, ∃ a ∈ c, a = .accepted ∧ comp = .fired true := by
  rw [uploadResult, List.all_eq_true]
  refine forall_congr' (fun c => imp_congr_right (fun _ => ?_))
  rw [clusterResult, List.any_eq_true]
  refine exists_congr (fun a => and_congr_right (fun _ => ?_))
  cases a with
  | connectError => simp [addrResult]
  | rejected => simp [addrResult]
  | accepted =>
    cases comp with
    | fired e => cases e <;> simp [addrResult]
    | dropped => simp [addrResult]

end Ciruela
